import Mathlib

/-!
Verification development for the oneway-ANOVA statistics engine in
`statsmodels/stats/oneway.py`.

The numeric core is embedded over `ℚ` (exact rational arithmetic standing in
for the program's real arithmetic).  The external SciPy distribution
primitives (`stats.f.sf`, `stats.ncf.cdf`, `stats.ncf.ppf`,
`scipy.special.ncfdtrinc`) and `np.sqrt` are opaque numeric routines for the
repository: every definition that calls one takes it as an explicit function
argument, and theorems quantify over those arguments.  Fallible Python code
(functions containing `raise`) is embedded as `Except String _`.
-/

/-- `np.dot(xs, ys)` for 1-D arrays: the sum of elementwise products. -/
def npdot (xs ys : List ℚ) : ℚ :=
  (List.zipWith (· * ·) xs ys).sum

/-- `Except.isOk`-style test used to state "the call does not raise". -/
def isOkE {α : Type} : Except String α → Bool
  | .ok _ => true
  | .error _ => false

/-- Result record of `anova_generic` (a `HolderTuple` in the source).
The three `Option` fields are the extra entries the Brown-Forsythe branch
puts into the `options` dict (`df2`, `df_num2`, `pvalue2`). -/
structure AnovaResult where
  statistic : ℚ
  pvalue : ℚ
  df : ℚ × ℚ
  df_num : ℚ
  df_denom : ℚ
  nobs_t : ℚ
  n_groups : ℕ
  use_var : String
  welch_correction : Bool
  df2 : Option (ℚ × ℚ) := none
  df_num2 : Option ℚ := none
  pvalue2 : Option ℚ := none
  deriving Repr, DecidableEq

/-- `anova_generic(means, vars_, nobs, use_var, welch_correction)` from
`statsmodels/stats/oneway.py`.  `f_sf` is SciPy's `stats.f.sf`
(upper-tail F survival function), taken as an opaque primitive. -/
def anova_generic (f_sf : ℚ → ℚ → ℚ → ℚ) (means vars_ nobs : List ℚ)
    (use_var : String) (welch_correction : Bool) :
    Except String AnovaResult :=
  let nobs_t : ℚ := nobs.sum
  let n_groups : ℕ := means.length
  let k : ℚ := n_groups
  let weights : List ℚ :=
    if use_var = "unequal" then List.zipWith (· / ·) nobs vars_ else nobs
  let w_total : ℚ := weights.sum
  let w_rel : List ℚ := weights.map (· / w_total)
  let meanw_t : ℚ := npdot w_rel means
  let statistic0 : ℚ :=
    npdot weights (means.map (fun m => (m - meanw_t) ^ 2)) / (k - 1)
  if use_var = "unequal" then
    let tmp : ℚ :=
      (List.zipWith (fun w n => (1 - w) ^ 2 / (n - 1)) w_rel nobs).sum /
        (k ^ 2 - 1)
    let statistic : ℚ :=
      if welch_correction then statistic0 / (1 + 2 * (k - 2) * tmp)
      else statistic0
    let df_denom : ℚ := 1 / (3 * tmp)
    .ok { statistic := statistic
          pvalue := f_sf statistic (k - 1) df_denom
          df := (k - 1, df_denom)
          df_num := k - 1
          df_denom := df_denom
          nobs_t := nobs_t
          n_groups := n_groups
          use_var := use_var
          welch_correction := welch_correction }
  else if use_var = "equal" then
    -- variance of group demeaned total sample, pooled var_resid
    let tmp : ℚ :=
      (List.zipWith (fun n v => (n - 1) * v) nobs vars_).sum / (nobs_t - k)
    let statistic : ℚ := statistic0 / tmp
    .ok { statistic := statistic
          pvalue := f_sf statistic (k - 1) (nobs_t - k)
          df := (k - 1, nobs_t - k)
          df_num := k - 1
          df_denom := nobs_t - k
          nobs_t := nobs_t
          n_groups := n_groups
          use_var := use_var
          welch_correction := welch_correction }
  else if use_var = "bf" then
    let tmp : ℚ :=
      (List.zipWith (fun n v => (1 - n / nobs_t) * v) nobs vars_).sum
    let statistic : ℚ :=
      npdot nobs (means.map (fun m => (m - meanw_t) ^ 2)) / tmp
    let df_num2 : ℚ := k - 1
    let df_denom : ℚ :=
      tmp ^ 2 /
        (List.zipWith (fun n v => (1 - n / nobs_t) ^ 2 * v ^ 2 / (n - 1))
          nobs vars_).sum
    let df_num : ℚ :=
      tmp ^ 2 /
        ((vars_.map (fun v => v ^ 2)).sum +
          ((List.zipWith (fun n v => n / nobs_t * v) nobs vars_).sum) ^ 2 -
          2 * (List.zipWith (fun n v => n / nobs_t * v ^ 2) nobs vars_).sum)
    let pval2 : ℚ := f_sf statistic df_num2 df_denom
    .ok { statistic := statistic
          pvalue := f_sf statistic df_num df_denom
          df := (df_num, df_denom)
          df_num := df_num
          df_denom := df_denom
          nobs_t := nobs_t
          n_groups := n_groups
          use_var := use_var
          welch_correction := welch_correction
          df2 := some (df_num2, df_denom)
          df_num2 := some df_num2
          pvalue2 := some pval2 }
  else
    .error "use_var is to be one of \"unequal\", \"equal\" or \"bf\""

/-- `str.lower()` on an ASCII mode string (structurally computable). -/
def strLower (s : String) : String := ⟨s.data.map Char.toLower⟩

/-- `effectsize_oneway(means, vars_, nobs, use_var, ddof_between)` from
`statsmodels/stats/oneway.py`.  The function contains no `raise`; it is
total.  The embedding takes the per-group arrays of the GroupSummary data
model directly (`vars_` and `nobs` of length `n_groups`); the NumPy
scalar-argument broadcasting convenience (`np.size(...) == 1`) is outside
the embedding, except for the `np.size(vars_) == 1` test of the
`use_var == "equal"` branch, which for a length-1 array skips the pooling.
The `use_var.lower() == "bf"` branch recomputes the effect size with the
Brown-Forsythe correction ratio; the pre-computed `f2` is discarded there. -/
def effectsize_oneway (means vars0 nobs : List ℚ)
    (use_var : String) (ddof_between : ℚ) : ℚ :=
  let n_groups : ℕ := means.length
  let k : ℚ := n_groups
  let nobs_t : ℚ := nobs.sum
  let vars_ : List ℚ :=
    if use_var = "equal" then
      if vars0.length = 1 then vars0
      else
        List.replicate n_groups
          ((List.zipWith (fun n v => (n - 1) * v) nobs vars0).sum /
            (nobs_t - k))
    else vars0
  let weights : List ℚ := List.zipWith (· / ·) nobs vars_
  let w_total : ℚ := weights.sum
  let w_rel : List ℚ := weights.map (· / w_total)
  let meanw_t : ℚ := npdot w_rel means
  let f2 : ℚ :=
    npdot weights (means.map (fun m => (m - meanw_t) ^ 2)) /
      (nobs_t - ddof_between)
  if strLower use_var = "bf" then
    let weights : List ℚ := nobs
    let w_total : ℚ := weights.sum
    let w_rel : List ℚ := weights.map (· / w_total)
    let meanw_t : ℚ := npdot w_rel means
    let tmp : ℚ :=
      (List.zipWith (fun n v => (1 - n / nobs_t) * v) nobs vars_).sum
    let statistic : ℚ :=
      npdot nobs (means.map (fun m => (m - meanw_t) ^ 2)) / tmp
    let f2b : ℚ := statistic * (nobs.map (fun n => 1 - n / nobs_t)).sum / nobs_t
    -- correction factor for df_num in BFM
    let df_num2 : ℚ := k - 1
    let df_num : ℚ :=
      tmp ^ 2 /
        ((vars_.map (fun v => v ^ 2)).sum +
          ((List.zipWith (fun n v => n / nobs_t * v) nobs vars_).sum) ^ 2 -
          2 * (List.zipWith (fun n v => n / nobs_t * v ^ 2) nobs vars_).sum)
    f2b * df_num / df_num2
  else f2

/-- Result record of `equivalence_oneway_generic` (a `HolderTuple`). -/
structure EquivResult where
  statistic : ℚ
  pvalue : ℚ
  effectsize : ℚ
  crit_f : ℚ
  crit_es : ℚ
  reject : Bool
  power_zero : ℚ
  df : ℚ × ℚ
  f_stat : ℚ
  type_effectsize : String
  deriving Repr, DecidableEq

/-- `equivalence_oneway_generic(f_stat, n_groups, nobs, equiv_margin, df,
alpha, margin_type)` from `statsmodels/stats/oneway.py`.  `ncf_ppf` and
`ncf_cdf` are SciPy's `stats.ncf.ppf` / `stats.ncf.cdf` (noncentral-F
quantile and CDF), taken as opaque primitives. -/
def equivalence_oneway_generic (ncf_ppf ncf_cdf : ℚ → ℚ → ℚ → ℚ → ℚ)
    (f_stat : ℚ) (n_groups : ℕ) (nobs : List ℚ) (equiv_margin : ℚ)
    (df : ℚ × ℚ) (alpha : ℚ) (margin_type : String) :
    Except String EquivResult :=
  let nobs_t : ℚ := nobs.sum
  let nobs_mean : ℚ := nobs_t / n_groups
  let k : ℚ := n_groups
  if margin_type = "wellek" then
    let nc_null : ℚ := nobs_mean * equiv_margin ^ 2
    let es : ℚ := f_stat * (k - 1) / nobs_mean
    let crit_f : ℚ := ncf_ppf alpha df.1 df.2 nc_null
    let crit_es : ℚ := crit_f * (k - 1) / nobs_mean
    .ok { statistic := f_stat
          pvalue := ncf_cdf f_stat df.1 df.2 nc_null
          effectsize := es
          crit_f := crit_f
          crit_es := crit_es
          reject := decide (es < crit_es)
          power_zero := ncf_cdf crit_f df.1 df.2 (1 / 10 ^ 13)
          df := df
          f_stat := f_stat
          type_effectsize := "Wellek\x27s psi_squared" }
  else if margin_type ∈ ["f2", "fsqu", "fsquared"] then
    let nc_null : ℚ := nobs_t * equiv_margin
    let es : ℚ := f_stat / nobs_t
    let crit_f : ℚ := ncf_ppf alpha df.1 df.2 nc_null
    let crit_es : ℚ := crit_f / nobs_t
    .ok { statistic := f_stat
          pvalue := ncf_cdf f_stat df.1 df.2 nc_null
          effectsize := es
          crit_f := crit_f
          crit_es := crit_es
          reject := decide (es < crit_es)
          power_zero := ncf_cdf crit_f df.1 df.2 (1 / 10 ^ 13)
          df := df
          f_stat := f_stat
          type_effectsize := "Cohen\x27s f_squared" }
  else
    .error "`margin_type` should be \"f2\" or \"wellek\""

/-- `confint_noncentrality(f_stat, df1, df2, alpha, alternative)` from
`statsmodels/stats/oneway.py`.  `ncfdtrinc` is SciPy's
`scipy.special.ncfdtrinc` (inversion of the noncentral-F CDF with respect to
the noncentrality parameter), taken as an opaque primitive; the source
applies it elementwise to `[1 - alpha/2, alpha/2]`. -/
def confint_noncentrality (ncfdtrinc : ℚ → ℚ → ℚ → ℚ → ℚ)
    (f_stat df1 df2 alpha : ℚ) (alternative : String) :
    Except String (ℚ × ℚ) :=
  if alternative ∈ ["two-sided", "2s", "ts"] then
    .ok (ncfdtrinc df1 df2 (1 - alpha / 2) f_stat,
         ncfdtrinc df1 df2 (alpha / 2) f_stat)
  else
    .error "NotImplementedError"

/-- Result record of `confint_effectsize_oneway` (a `Holder`); each field is
the pair of interval endpoints (the source works on length-2 arrays). -/
structure EffectSizeCI where
  f2 : ℚ × ℚ
  eta2 : ℚ × ℚ
  ci_nc : ℚ × ℚ
  ci_f : ℚ × ℚ
  ci_eta : ℚ × ℚ
  ci_f_corrected : ℚ × ℚ
  deriving Repr, DecidableEq

/-- `confint_effectsize_oneway(f_stat, df1, df2, alpha, nobs, alternative)`
from `statsmodels/stats/oneway.py`.  `sqrtQ` is `np.sqrt`, taken as an
opaque primitive.  The `eta2` endpoints come from
`convert_effectsize_fsqu(f2=ci_f2)`, i.e. `eta2 = 1 / (1 + 1 / f2)`.
Note the source always passes `alternative="two-sided"` to
`confint_noncentrality`, so this function never raises. -/
def confint_effectsize_oneway (ncfdtrinc : ℚ → ℚ → ℚ → ℚ → ℚ)
    (sqrtQ : ℚ → ℚ) (f_stat df1 df2 alpha : ℚ) (nobs : Option ℚ) :
    Except String EffectSizeCI :=
  match confint_noncentrality ncfdtrinc f_stat df1 df2 alpha "two-sided" with
  | .error e => .error e
  | .ok ci_nc =>
    let nobs' : ℚ := nobs.getD (df1 + df2 + 1)
    let ci_f2 : ℚ × ℚ := (ci_nc.1 / nobs', ci_nc.2 / nobs')
    let eta2 : ℚ × ℚ := (1 / (1 + 1 / ci_f2.1), 1 / (1 + 1 / ci_f2.2))
    .ok { f2 := ci_f2
          eta2 := eta2
          ci_nc := ci_nc
          ci_f := (sqrtQ ci_f2.1, sqrtQ ci_f2.2)
          ci_eta := (sqrtQ eta2.1, sqrtQ eta2.2)
          ci_f_corrected := (sqrtQ (ci_f2.1 * (df1 + 1) / df1),
                             sqrtQ (ci_f2.2 * (df1 + 1) / df1)) }

/-- `x.mean()` for a 1-D sample. -/
def sampleMean (xs : List ℚ) : ℚ := xs.sum / xs.length

/-- `x.var(ddof=1)` for a 1-D sample. -/
def sampleVar (xs : List ℚ) : ℚ :=
  (xs.map (fun x => (x - sampleMean xs) ^ 2)).sum / (xs.length - 1)

/-- Insert into a sorted list (ascending). -/
def insertSorted (x : ℚ) : List ℚ → List ℚ
  | [] => [x]
  | y :: ys => if x ≤ y then x :: y :: ys else y :: insertSorted x ys

/-- Sort a 1-D sample ascending (insertion sort). -/
def sortQ (xs : List ℚ) : List ℚ := xs.foldr insertSorted []

/-- Modelled from the spec: the `TrimmedMean` summary statistics of
`statsmodels/stats/robust_compare.py`, whose source is not under `src/`
(only `anova_oneway`'s use of it is).  Following spec section 4.1: sort the
sample, drop the lowest and highest `floor(trim_frac * n)` observations for
the trimmed mean; clamp (winsorize) the same tail observations to the
boundary values and take the `ddof=1` variance, rescaled by
`(n - 1) / (n_trimmed - 1)`; `nobs` becomes the trimmed count.
Returns `(mean_trimmed, var_winsorized_rescaled, nobs_reduced)`. -/
def trimmedStats (xs : List ℚ) (trim_frac : ℚ) : ℚ × ℚ × ℚ :=
  let n : ℕ := xs.length
  let cut : ℕ := (⌊trim_frac * (n : ℚ)⌋).toNat
  let sorted : List ℚ := sortQ xs
  let kept : List ℚ := (sorted.drop cut).take (n - 2 * cut)
  let mean_tr : ℚ := kept.sum / kept.length
  let lowv : ℚ := sorted.getD cut 0
  let highv : ℚ := sorted.getD (n - 1 - cut) 0
  let wins : List ℚ := sorted.map (fun x => max lowv (min highv x))
  let n_red : ℚ := (n : ℚ) - 2 * (cut : ℚ)
  (mean_tr, sampleVar wins * ((n : ℚ) - 1) / (n_red - 1), n_red)

/-- `anova_oneway(data, groups=None, use_var, welch_correction, trim_frac)`
from `statsmodels/stats/oneway.py`, for the `groups=None` path (the only one
exercised by the code under verification).  Samples are 1-D lists by
construction, so the `ndim != 1` validation cannot fire.  With
`trim_frac == 0` the per-group mean and `ddof=1` variance are used; otherwise
the trimmed/winsorized summaries with the reduced observation count. -/
def anova_oneway (f_sf : ℚ → ℚ → ℚ → ℚ) (data : List (List ℚ))
    (use_var : String) (welch_correction : Bool) (trim_frac : ℚ) :
    Except String AnovaResult :=
  if trim_frac = 0 then
    anova_generic f_sf (data.map sampleMean) (data.map sampleVar)
      (data.map (fun x => (x.length : ℚ))) use_var welch_correction
  else
    let ts := data.map (fun x => trimmedStats x trim_frac)
    anova_generic f_sf (ts.map (·.1)) (ts.map (·.2.1)) (ts.map (·.2.2))
      use_var welch_correction

/-- Result record of `simulate_power_equivalence_oneway` (a `Holder`):
per-trial arrays (one row per Monte Carlo trial). -/
structure SimResult where
  f_stat : List (List ℚ)
  other : List (List ℚ)
  pvalue : List (List ℚ)
  reject : List (List Bool)
  deriving Repr, DecidableEq

/-- The synthetic samples of one Monte Carlo trial:
`[m + std * np.random.randn(n) for (n, m, std) in zip(nobs, means, stds)]`.
The process-wide pseudorandom stream is modelled by the indexed draws
`randn trial group i`; like Python's `zip`, generation truncates to the
shortest of the three argument lists.  `g` is the group index. -/
def genSamples (randn : ℕ → ℕ → ℕ → ℚ) (t : ℕ) :
    List ℕ → List ℚ → List ℚ → ℕ → List (List ℚ)
  | n :: ns, m :: ms, s :: ss, g =>
      ((List.range n).map (fun j => m + s * randn t g j)) ::
        genSamples randn t ns ms ss (g + 1)
  | _, _, _, _ => []

/-- One (trial, variance-mode) cell of the Monte Carlo loop body of
`simulate_power_equivalence_oneway`: run `anova_oneway` on the trial's
samples, feed its statistic and df into `equivalence_oneway_generic`
(`alpha=0.05`), and record
`(pvalue, es_wellek, reject, [crit_f, crit_es, power_zero])` where
`es_wellek = f_stat * (n_groups - 1) / nobs_mean`. -/
def mcCellE (f_sf : ℚ → ℚ → ℚ → ℚ) (ncf_ppf ncf_cdf : ℚ → ℚ → ℚ → ℚ → ℚ)
    (ys : List (List ℚ)) (trim_frac : ℚ) (n_groups : ℕ)
    (nobs_sum nobs_mean equiv_margin : ℚ) (margin_type uv : String) :
    Except String (ℚ × ℚ × Bool × List ℚ) := do
  let res0 ← anova_oneway f_sf ys uv true trim_frac
  let res1 ← equivalence_oneway_generic ncf_ppf ncf_cdf res0.statistic
      n_groups [nobs_sum] equiv_margin res0.df (5 / 100) margin_type
  pure (res1.pvalue, res0.statistic * ((n_groups : ℚ) - 1) / nobs_mean,
        res1.reject, [res1.crit_f, res1.crit_es, res1.power_zero])

/-- One Monte Carlo trial of `simulate_power_equivalence_oneway`: draw the
per-group samples, unpack them as `y0, y1, y2, y3 = [...]` (in Python this
raises a `ValueError` unless the comprehension yields exactly four
samples), then run `mcCellE` for every requested variance mode, collecting
the per-mode p-values, Wellek effect sizes, rejection flags, and the
concatenated `[crit_f, crit_es, power_zero]` triples. -/
def simTrial (f_sf : ℚ → ℚ → ℚ → ℚ) (ncf_ppf ncf_cdf : ℚ → ℚ → ℚ → ℚ → ℚ)
    (randn : ℕ → ℕ → ℕ → ℚ) (means : List ℚ) (nobs : List ℕ)
    (equiv_margin : ℚ) (stds : List ℚ) (trim_frac : ℚ)
    (margin_type : String) (options : List String) (n_groups : ℕ)
    (nobs_sum nobs_mean : ℚ) (t : ℕ) :
    Except String (List ℚ × List ℚ × List Bool × List ℚ) :=
  match genSamples randn t nobs means stds 0 with
  | [y0, y1, y2, y3] => do
      let cells ← options.mapM
        (mcCellE f_sf ncf_ppf ncf_cdf [y0, y1, y2, y3] trim_frac n_groups
          nobs_sum nobs_mean equiv_margin margin_type)
      pure (cells.map (·.1), cells.map (·.2.1), cells.map (·.2.2.1),
            (cells.map (·.2.2.2)).flatten)
  | _ => Except.error "not enough or too many values to unpack (expected 4)"

/-- The per-group standard deviations of the simulation:
`np.sqrt(vars_)` when variances are given, else `np.ones(len(means))`. -/
def simStds (sqrtQ : ℚ → ℚ) (means : List ℚ) : Option (List ℚ) → List ℚ
  | some vs => vs.map sqrtQ
  | none => List.replicate means.length 1

/-- `simulate_power_equivalence_oneway(means, nobs, equiv_margin, vars_,
k_mc, trim_frac, options_var, margin_type)` from
`statsmodels/stats/oneway.py`. -/
def simulate_power_equivalence_oneway
    (f_sf : ℚ → ℚ → ℚ → ℚ) (ncf_ppf ncf_cdf : ℚ → ℚ → ℚ → ℚ → ℚ)
    (sqrtQ : ℚ → ℚ) (randn : ℕ → ℕ → ℕ → ℚ)
    (means : List ℚ) (nobs : List ℕ) (equiv_margin : ℚ)
    (vars_ : Option (List ℚ)) (k_mc : ℕ) (trim_frac : ℚ)
    (options_var : Option (List String)) (margin_type : String) :
    Except String SimResult := do
  let options := options_var.getD ["unequal", "equal", "bf"]
  let stds : List ℚ := simStds sqrtQ means vars_
  let nobs_mean : ℚ := (nobs.map (fun n => (n : ℚ))).sum / nobs.length
  let n_groups : ℕ := nobs.length
  let nobs_sum : ℚ := (nobs.map (fun n => (n : ℚ))).sum
  let trials ← (List.range k_mc).mapM
    (simTrial f_sf ncf_ppf ncf_cdf randn means nobs equiv_margin stds
      trim_frac margin_type options n_groups nobs_sum nobs_mean)
  pure { f_stat := trials.map (·.2.1)
         other := trials.map (·.2.2.2)
         pvalue := trials.map (·.1)
         reject := trials.map (·.2.2.1) }

/-! ### List algebra helpers -/

theorem sum_map_div (l : List ℚ) (c : ℚ) :
    (l.map (· / c)).sum = l.sum / c := by
  induction l with
  | nil => simp
  | cons x xs ih => simp [ih, add_div]

theorem npdot_map_div_left (ws ms : List ℚ) (c : ℚ) :
    npdot (ws.map (· / c)) ms = npdot ws ms / c := by
  induction ws generalizing ms with
  | nil => simp [npdot]
  | cons w ws ih =>
    cases ms with
    | nil => simp [npdot]
    | cons m ms =>
      simp only [npdot, List.map_cons, List.zipWith_cons_cons, List.sum_cons]
        at *
      rw [ih, add_div, div_mul_eq_mul_div]

theorem zipWith_replicate_right (f : ℚ → ℚ → ℚ) (xs : List ℚ) (k : ℕ)
    (c : ℚ) (h : xs.length ≤ k) :
    List.zipWith f xs (List.replicate k c) = xs.map (fun x => f x c) := by
  induction xs generalizing k with
  | nil => simp
  | cons x xs ih =>
    cases k with
    | zero => simp at h
    | succ k =>
      simp only [List.length_cons, Nat.succ_le_succ_iff] at h
      simp [List.replicate_succ, ih k h]

theorem sum_map_mul_right (l : List ℚ) (f : ℚ → ℚ) (c : ℚ) :
    (l.map (fun x => f x * c)).sum = (l.map f).sum * c := by
  induction l with
  | nil => simp
  | cons x xs ih => simp [ih, add_mul]

theorem sum_map_one_sub_div (ns : List ℚ) (c : ℚ) :
    (ns.map (fun n => 1 - n / c)).sum = (ns.length : ℚ) - ns.sum / c := by
  induction ns with
  | nil => simp
  | cons n ns ih =>
    simp only [List.map_cons, List.sum_cons, ih, List.length_cons,
      List.sum_cons, Nat.cast_succ, add_div]
    ring

theorem length_lt_sum_of_one_lt (ns : List ℚ) (hne : ns ≠ [])
    (h : ∀ n ∈ ns, 1 < n) : (ns.length : ℚ) < ns.sum := by
  induction ns with
  | nil => exact absurd rfl hne
  | cons n ns ih =>
    cases ns with
    | nil => simpa using h n (by simp)
    | cons m ms =>
      have h1 := ih (by simp) (fun x hx => h x (List.mem_cons_of_mem _ hx))
      have h2 := h n (by simp)
      simp only [List.length_cons, List.sum_cons] at *
      push_cast at *
      linarith

/-! ### Claim theorems -/

/-- C1: for every call of `anova_generic` with `use_var="bf"` on group
summaries, the result exposes the primary triple `(df_num, df_denom,
pvalue)` with the Merothra-corrected
`df_num = tmp^2 / (sum(vars^2) + (sum(nobs/nobs_t * vars))^2
- 2*sum(nobs/nobs_t * vars^2))`, and the secondary triple
`(df_num2 = k-1, df_denom2 = tmp^2 / sum((1-nobs/nobs_t)^2 * vars^2
/ (nobs-1)), pvalue2)`, where each p-value is the upper-tail F survival
function of the same statistic at its own df pair (the primary `df_denom`
coincides with `df_denom2`). -/
theorem anova_generic_bf_dual_df (f_sf : ℚ → ℚ → ℚ → ℚ)
    (means vars_ nobs : List ℚ) (welch : Bool) :
    anova_generic f_sf means vars_ nobs "bf" welch =
      (let nobs_t : ℚ := nobs.sum
       let k : ℚ := means.length
       let meanw : ℚ := npdot nobs means / nobs.sum
       let tmp : ℚ :=
         (List.zipWith (fun n v => (1 - n / nobs_t) * v) nobs vars_).sum
       let statistic : ℚ :=
         npdot nobs (means.map (fun m => (m - meanw) ^ 2)) / tmp
       let df_num : ℚ :=
         tmp ^ 2 /
           ((vars_.map (fun v => v ^ 2)).sum +
             ((List.zipWith (fun n v => n / nobs_t * v) nobs vars_).sum) ^ 2 -
             2 * (List.zipWith (fun n v => n / nobs_t * v ^ 2) nobs vars_).sum)
       let df_denom2 : ℚ :=
         tmp ^ 2 /
           (List.zipWith (fun n v => (1 - n / nobs_t) ^ 2 * v ^ 2 / (n - 1))
             nobs vars_).sum
       Except.ok { statistic := statistic
                   pvalue := f_sf statistic df_num df_denom2
                   df := (df_num, df_denom2)
                   df_num := df_num
                   df_denom := df_denom2
                   nobs_t := nobs_t
                   n_groups := means.length
                   use_var := "bf"
                   welch_correction := welch
                   df2 := some (k - 1, df_denom2)
                   df_num2 := some (k - 1)
                   pvalue2 := some (f_sf statistic (k - 1) df_denom2) }) := by
  simp [anova_generic, npdot_map_div_left]

/-- C2: for every call of `anova_generic` with `use_var="unequal"` on `k`
groups, the statistic is `sum(weights_i*(mean_i - meanw)^2)/(k-1)` with
`weights_i = nobs_i/var_i` and `meanw` the weighted grand mean, divided
additionally by `1 + 2*(k-2)*tmp` exactly when `welch_correction` is true,
with `tmp = sum((1 - w_rel_i)^2/(nobs_i - 1))/(k^2 - 1)` and
`w_rel_i = weights_i / sum(weights)`; the numerator df is `k-1` and the
denominator df is `1/(3*tmp)`. -/
theorem anova_generic_unequal_welch (f_sf : ℚ → ℚ → ℚ → ℚ)
    (means vars_ nobs : List ℚ) (welch : Bool) :
    anova_generic f_sf means vars_ nobs "unequal" welch =
      (let k : ℚ := means.length
       let weights : List ℚ := List.zipWith (fun n v => n / v) nobs vars_
       let meanw : ℚ := npdot weights means / weights.sum
       let tmp : ℚ :=
         (List.zipWith (fun w n => (1 - w / weights.sum) ^ 2 / (n - 1))
           weights nobs).sum / (k ^ 2 - 1)
       let statistic : ℚ :=
         if welch then
           npdot weights (means.map (fun m => (m - meanw) ^ 2)) / (k - 1) /
             (1 + 2 * (k - 2) * tmp)
         else npdot weights (means.map (fun m => (m - meanw) ^ 2)) / (k - 1)
       let df_denom : ℚ := 1 / (3 * tmp)
       Except.ok { statistic := statistic
                   pvalue := f_sf statistic (k - 1) df_denom
                   df := (k - 1, df_denom)
                   df_num := k - 1
                   df_denom := df_denom
                   nobs_t := nobs.sum
                   n_groups := means.length
                   use_var := "unequal"
                   welch_correction := welch }) := by
  simp [anova_generic, npdot_map_div_left, List.zipWith_map_left]

/-- C10: for `use_var` equal to `"equal"` or `"bf"`, `anova_generic`
returns the same statistic, pvalue, df_num and df_denom regardless of the
`welch_correction` flag (the flag influences those outputs only in the
`"unequal"` mode). -/
theorem anova_generic_welch_flag_independent (f_sf : ℚ → ℚ → ℚ → ℚ)
    (means vars_ nobs : List ℚ) (use_var : String) (w1 w2 : Bool)
    (h : use_var = "equal" ∨ use_var = "bf") :
    (anova_generic f_sf means vars_ nobs use_var w1).map
        (fun r => (r.statistic, r.pvalue, r.df_num, r.df_denom)) =
      (anova_generic f_sf means vars_ nobs use_var w2).map
        (fun r => (r.statistic, r.pvalue, r.df_num, r.df_denom)) := by
  rcases h with h | h <;> subst h <;> rfl

/-- Witness for C10: the "equal" mode at a concrete input, with the two
values of the flag. -/
theorem anova_generic_welch_flag_independent_witness :
    (anova_generic (fun _ _ _ => 0) [1, 2] [1, 1] [3, 4] "equal" true).map
        (fun r => (r.statistic, r.pvalue, r.df_num, r.df_denom)) =
      (anova_generic (fun _ _ _ => 0) [1, 2] [1, 1] [3, 4] "equal" false).map
        (fun r => (r.statistic, r.pvalue, r.df_num, r.df_denom)) :=
  anova_generic_welch_flag_independent (fun _ _ _ => 0) [1, 2] [1, 1] [3, 4]
    "equal" true false (Or.inl rfl)

/-- C3: for every call of `equivalence_oneway_generic` with a valid
`margin_type`: under `"wellek"` the null noncentrality is
`nobs_mean * margin^2` (`nobs_mean = nobs_total/n_groups`) and the effect
size is `f_stat*(n_groups-1)/nobs_mean`; under the `"f2"` family the null
noncentrality is `nobs_total * margin` and the effect size is
`f_stat/nobs_total`; the critical F is the `alpha`-quantile of the
noncentral F at `(df1, df2, nc_null)`, the critical effect size is obtained
from it by the same formula family, `reject = (es < crit_es)`, and `pvalue`
is the noncentral-F CDF at `f_stat`. -/
theorem equivalence_oneway_generic_margin_types
    (ncf_ppf ncf_cdf : ℚ → ℚ → ℚ → ℚ → ℚ) (f_stat : ℚ) (n_groups : ℕ)
    (nobs : List ℚ) (margin : ℚ) (df : ℚ × ℚ) (alpha : ℚ)
    (margin_type : String)
    (h : margin_type = "wellek" ∨ margin_type ∈ ["f2", "fsqu", "fsquared"]) :
    equivalence_oneway_generic ncf_ppf ncf_cdf f_stat n_groups nobs margin df
        alpha margin_type =
      (let nobs_t : ℚ := nobs.sum
       let nobs_mean : ℚ := nobs_t / n_groups
       let k : ℚ := n_groups
       let nc_null : ℚ :=
         if margin_type = "wellek" then nobs_mean * margin ^ 2
         else nobs_t * margin
       let es : ℚ :=
         if margin_type = "wellek" then f_stat * (k - 1) / nobs_mean
         else f_stat / nobs_t
       let crit_f : ℚ := ncf_ppf alpha df.1 df.2 nc_null
       let crit_es : ℚ :=
         if margin_type = "wellek" then crit_f * (k - 1) / nobs_mean
         else crit_f / nobs_t
       Except.ok { statistic := f_stat
                   pvalue := ncf_cdf f_stat df.1 df.2 nc_null
                   effectsize := es
                   crit_f := crit_f
                   crit_es := crit_es
                   reject := decide (es < crit_es)
                   power_zero := ncf_cdf crit_f df.1 df.2 (1 / 10 ^ 13)
                   df := df
                   f_stat := f_stat
                   type_effectsize :=
                     if margin_type = "wellek" then "Wellek\x27s psi_squared"
                     else "Cohen\x27s f_squared" }) := by
  rcases h with h | h
  · subst h; rfl
  · simp only [List.mem_cons, List.mem_singleton, List.not_mem_nil, or_false]
      at h
    rcases h with h | h | h <;> subst h <;> rfl

/-- Witness for C3: the `"wellek"` margin type at a concrete input. -/
theorem equivalence_oneway_generic_margin_types_witness :
    equivalence_oneway_generic (fun _ _ _ _ => 0) (fun _ _ _ _ => 0) 1 3 [12]
        1 (2, 9) (5 / 100) "wellek" =
      (let nobs_t : ℚ := [(12 : ℚ)].sum
       let nobs_mean : ℚ := nobs_t / (3 : ℕ)
       let k : ℚ := (3 : ℕ)
       let nc_null : ℚ :=
         if ("wellek" : String) = "wellek" then nobs_mean * (1 : ℚ) ^ 2
         else nobs_t * 1
       let es : ℚ :=
         if ("wellek" : String) = "wellek" then 1 * (k - 1) / nobs_mean
         else 1 / nobs_t
       let crit_f : ℚ := (fun _ _ _ _ => (0 : ℚ)) (5 / 100 : ℚ)
         ((2 : ℚ), (9 : ℚ)).1 ((2 : ℚ), (9 : ℚ)).2 nc_null
       let crit_es : ℚ :=
         if ("wellek" : String) = "wellek" then crit_f * (k - 1) / nobs_mean
         else crit_f / nobs_t
       Except.ok { statistic := 1
                   pvalue := (fun _ _ _ _ => (0 : ℚ)) (1 : ℚ)
                     ((2 : ℚ), (9 : ℚ)).1 ((2 : ℚ), (9 : ℚ)).2 nc_null
                   effectsize := es
                   crit_f := crit_f
                   crit_es := crit_es
                   reject := decide (es < crit_es)
                   power_zero := (fun _ _ _ _ => (0 : ℚ)) crit_f
                     ((2 : ℚ), (9 : ℚ)).1 ((2 : ℚ), (9 : ℚ)).2 (1 / 10 ^ 13)
                   df := (2, 9)
                   f_stat := 1
                   type_effectsize :=
                     if ("wellek" : String) = "wellek" then
                       "Wellek\x27s psi_squared"
                     else "Cohen\x27s f_squared" }) :=
  equivalence_oneway_generic_margin_types (fun _ _ _ _ => 0)
    (fun _ _ _ _ => 0) 1 3 [12] 1 (2, 9) (5 / 100) "wellek" (Or.inl rfl)

/-- C7: `confint_effectsize_oneway` defaults `nobs` to `df1+df2+1` when
unspecified; the `f2` interval is the noncentrality interval divided by
`nobs`; the `eta2` interval is the endpoint transformation
`eta2 = 1/(1 + 1/f2)`; and the corrected-`f` interval is
`sqrt(f2*(df1+1)/df1)` at each endpoint. -/
theorem confint_effectsize_oneway_spec (ncfdtrinc : ℚ → ℚ → ℚ → ℚ → ℚ)
    (sqrtQ : ℚ → ℚ) (f_stat df1 df2 alpha : ℚ) (nobs : Option ℚ) :
    (confint_effectsize_oneway ncfdtrinc sqrtQ f_stat df1 df2 alpha none =
       confint_effectsize_oneway ncfdtrinc sqrtQ f_stat df1 df2 alpha
         (some (df1 + df2 + 1))) ∧
    confint_effectsize_oneway ncfdtrinc sqrtQ f_stat df1 df2 alpha nobs =
      (let nb : ℚ := nobs.getD (df1 + df2 + 1)
       let lo : ℚ := ncfdtrinc df1 df2 (1 - alpha / 2) f_stat
       let hi : ℚ := ncfdtrinc df1 df2 (alpha / 2) f_stat
       Except.ok { f2 := (lo / nb, hi / nb)
                   eta2 := (1 / (1 + 1 / (lo / nb)), 1 / (1 + 1 / (hi / nb)))
                   ci_nc := (lo, hi)
                   ci_f := (sqrtQ (lo / nb), sqrtQ (hi / nb))
                   ci_eta := (sqrtQ (1 / (1 + 1 / (lo / nb))),
                              sqrtQ (1 / (1 + 1 / (hi / nb))))
                   ci_f_corrected := (sqrtQ (lo / nb * (df1 + 1) / df1),
                                      sqrtQ (hi / nb * (df1 + 1) / df1)) }) := by
  exact ⟨rfl, by cases nobs <;> rfl⟩

/-- Modelled from the spec: the contract of the external CDF-inversion
primitive (`scipy.special.ncfdtrinc`, spec section 4.4).  The routine is
not part of this repository; the spec describes it as seeking the
noncentrality value at which the noncentral-F CDF (monotonically
decreasing in the noncentrality) attains a given probability, so the
returned noncentrality is antitone in the probability argument and, being
a noncentrality parameter, non-negative. -/
def NcfdtrincContract (inc : ℚ → ℚ → ℚ → ℚ → ℚ) : Prop :=
  (∀ df1 df2 p q f_stat, p ≤ q →
      inc df1 df2 q f_stat ≤ inc df1 df2 p f_stat) ∧
  (∀ df1 df2 p f_stat, 0 ≤ inc df1 df2 p f_stat)

/-- C6: for every valid `(f_stat, df1, df2)` and `alpha` in `[0,1]` with
the two-sided alternative, `confint_noncentrality` returns the pair
`(lower, upper)` obtained from the inversion primitive at probabilities
`1 - alpha/2` and `alpha/2`, with `lower ≤ upper` and both non-negative. -/
theorem confint_noncentrality_ordered_nonneg (inc : ℚ → ℚ → ℚ → ℚ → ℚ)
    (f_stat df1 df2 alpha : ℚ) (hc : NcfdtrincContract inc)
    (_h0 : 0 ≤ alpha) (h1 : alpha ≤ 1) :
    confint_noncentrality inc f_stat df1 df2 alpha "two-sided" =
        Except.ok (inc df1 df2 (1 - alpha / 2) f_stat,
                   inc df1 df2 (alpha / 2) f_stat) ∧
      inc df1 df2 (1 - alpha / 2) f_stat ≤ inc df1 df2 (alpha / 2) f_stat ∧
      0 ≤ inc df1 df2 (1 - alpha / 2) f_stat ∧
      0 ≤ inc df1 df2 (alpha / 2) f_stat :=
  ⟨rfl, hc.1 _ _ _ _ _ (by linarith), hc.2 _ _ _ _, hc.2 _ _ _ _⟩

/-- A concrete primitive satisfying `NcfdtrincContract`. -/
def inc0 : ℚ → ℚ → ℚ → ℚ → ℚ := fun _ _ p _ => max 0 (1 - p)

theorem inc0_contract : NcfdtrincContract inc0 :=
  ⟨fun _ _ p q _ hpq => max_le_max le_rfl (by linarith),
   fun _ _ _ _ => le_max_left _ _⟩

/-- Witness for C6: the theorem instantiated at a concrete contract-
satisfying primitive and the Steiger scenario input `(5, 3, 76)`,
`alpha = 1/20`. -/
theorem confint_noncentrality_ordered_nonneg_witness :
    confint_noncentrality inc0 5 3 76 (1 / 20) "two-sided" =
        Except.ok (inc0 3 76 (1 - (1 / 20) / 2) 5,
                   inc0 3 76 ((1 / 20) / 2) 5) ∧
      inc0 3 76 (1 - (1 / 20) / 2) 5 ≤ inc0 3 76 ((1 / 20) / 2) 5 ∧
      0 ≤ inc0 3 76 (1 - (1 / 20) / 2) 5 ∧
      0 ≤ inc0 3 76 ((1 / 20) / 2) 5 :=
  confint_noncentrality_ordered_nonneg inc0 5 3 76 (1 / 20) inc0_contract
    (by norm_num) (by norm_num)

/-- Counterexample for C5: the claim says every variance-mode operation
(including `effectsize_oneway`) fails with an unsupported-mode error when
the mode string is outside `{"equal", "unequal", "bf"}`.  But
`effectsize_oneway` contains no mode validation: at the unsupported mode
string `"xx"` it returns an ordinary numeric result (the Welch/"unequal"
effect size) instead of failing. -/
theorem effectsize_oneway_no_mode_validation :
    ("xx" : String) ∉ ["unequal", "equal", "bf"] ∧
    effectsize_oneway [0, 3] [1, 2] [10, 5] "xx" 0 = 6 / 5 ∧
    effectsize_oneway [0, 3] [1, 2] [10, 5] "xx" 0 =
      effectsize_oneway [0, 3] [1, 2] [10, 5] "unequal" 0 := by
  have h1 : ("xx" : String) ≠ "equal" := by decide
  have h2 : strLower "xx" ≠ "bf" := by decide
  have h3 : ("unequal" : String) ≠ "equal" := by decide
  have h4 : strLower "unequal" ≠ "bf" := by decide
  refine ⟨by decide, ?_, ?_⟩ <;>
    norm_num [effectsize_oneway, npdot, if_neg h1, if_neg h2, if_neg h3,
      if_neg h4]

/-- C5 amended: `anova_generic` fails with the unsupported-mode error
exactly when `use_var` is outside `{"unequal", "equal", "bf"}` (returning
no partial result), while `effectsize_oneway` performs no mode validation:
for any mode string other than `"equal"` and any string whose
lower-casing is not `"bf"`, it silently computes the `"unequal"`
(Welch-weighting) effect size. -/
theorem mode_validation_amended (f_sf : ℚ → ℚ → ℚ → ℚ)
    (means vars_ nobs : List ℚ) (welch : Bool) (ddof : ℚ) :
    (∀ use_var : String,
      (isOkE (anova_generic f_sf means vars_ nobs use_var welch) = true ↔
        use_var ∈ ["unequal", "equal", "bf"])) ∧
    (∀ use_var : String, use_var ≠ "equal" → strLower use_var ≠ "bf" →
      effectsize_oneway means vars_ nobs use_var ddof =
        effectsize_oneway means vars_ nobs "unequal" ddof) := by
  constructor
  · intro uv
    by_cases h1 : uv = "unequal"
    · subst h1; simp [anova_generic, isOkE]
    · by_cases h2 : uv = "equal"
      · subst h2; simp [anova_generic, isOkE]
      · by_cases h3 : uv = "bf"
        · subst h3; simp [anova_generic, isOkE]
        · simp [anova_generic, isOkE, h1, h2, h3]
  · intro uv h1 h2
    have h3 : ("unequal" : String) ≠ "equal" := by decide
    have h4 : strLower "unequal" ≠ "bf" := by decide
    simp only [effectsize_oneway, if_neg h1, if_neg h2, if_neg h3, if_neg h4]

/-- Witness for C5: the amended theorem applied at the unsupported mode
strings `"xx"` and `"zz"` on concrete summaries. -/
theorem mode_validation_amended_witness :
    (isOkE (anova_generic (fun _ _ _ => 0) [0, 3] [1, 2] [10, 5] "xx" true) =
        true ↔ ("xx" : String) ∈ ["unequal", "equal", "bf"]) ∧
    effectsize_oneway [0, 3] [1, 2] [10, 5] "zz" 0 =
      effectsize_oneway [0, 3] [1, 2] [10, 5] "unequal" 0 :=
  ⟨(mode_validation_amended (fun _ _ _ => 0) [0, 3] [1, 2] [10, 5] true 0).1
      "xx",
   (mode_validation_amended (fun _ _ _ => 0) [0, 3] [1, 2] [10, 5] true 0).2
      "zz" (by decide) (by decide)⟩

/-- Counterexample for C4: the claim says `effectsize_oneway` divides each
mode's weighted between-group sum of squares by
`(nobs_total - ddof_between)` (and multiplies by `df_num/(k-1)` for
`"bf"`); that entails
`es(bf, ddof) * (nobs_total - ddof) = es(bf, 0) * nobs_total`, the weighted
sum of squares and correction ratio not depending on `ddof_between`.  At
`means = [0, 3]`, `vars = [1, 2]`, `nobs = [10, 5]` (`nobs_total = 15`) the
code violates this with a nonzero effect size: the `"bf"` branch ignores
`ddof_between` and always divides by `nobs_total`. -/
theorem effectsize_bf_ddof_counterexample :
    effectsize_oneway [0, 3] [1, 2] [10, 5] "bf" 1 * (15 - 1) ≠
        effectsize_oneway [0, 3] [1, 2] [10, 5] "bf" 0 * 15 ∧
      effectsize_oneway [0, 3] [1, 2] [10, 5] "bf" 0 ≠ 0 := by
  have h1 : ("bf" : String) ≠ "equal" := by decide
  have h2 : strLower "bf" = "bf" := by decide
  refine ⟨?_, ?_⟩ <;>
    norm_num [effectsize_oneway, npdot, if_neg h1, if_pos h2]

/-- C4 amended: in the `"equal"` and `"unequal"` modes `effectsize_oneway`
divides the mode's weighted between-group sum of squares by
`(nobs_total - ddof_between)`; in the `"bf"` mode `ddof_between` is
ignored — the statistic `sum(nobs*(means - meanw)^2) / tmp` is scaled by
`sum(1 - nobs/nobs_t) / nobs_total` and by the numerator-df correction
ratio `df_num/(k-1)`. -/
theorem effectsize_oneway_divisor_amended (means vars_ nobs : List ℚ)
    (d : ℚ) (hnt : nobs.sum ≠ d) (h0 : nobs.sum ≠ 0) :
    (effectsize_oneway means vars_ nobs "unequal" d * (nobs.sum - d) =
       effectsize_oneway means vars_ nobs "unequal" 0 * nobs.sum) ∧
    (effectsize_oneway means vars_ nobs "equal" d * (nobs.sum - d) =
       effectsize_oneway means vars_ nobs "equal" 0 * nobs.sum) ∧
    (effectsize_oneway means vars_ nobs "bf" d =
       effectsize_oneway means vars_ nobs "bf" 0) ∧
    (effectsize_oneway means vars_ nobs "bf" 0 =
      (let nobs_t : ℚ := nobs.sum
       let k : ℚ := means.length
       let meanw : ℚ := npdot nobs means / nobs.sum
       let tmp : ℚ :=
         (List.zipWith (fun n v => (1 - n / nobs_t) * v) nobs vars_).sum
       let statistic : ℚ :=
         npdot nobs (means.map (fun m => (m - meanw) ^ 2)) / tmp
       let df_num : ℚ :=
         tmp ^ 2 /
           ((vars_.map (fun v => v ^ 2)).sum +
             ((List.zipWith (fun n v => n / nobs_t * v) nobs vars_).sum) ^
               2 -
             2 * (List.zipWith (fun n v => n / nobs_t * v ^ 2) nobs
               vars_).sum)
       statistic * (nobs.map (fun n => 1 - n / nobs_t)).sum / nobs_t *
         df_num / (k - 1))) := by
  have e1 : nobs.sum - d ≠ 0 := sub_ne_zero.mpr hnt
  have hbf1 : strLower "unequal" ≠ "bf" := by decide
  have hbf2 : strLower "equal" ≠ "bf" := by decide
  refine ⟨?_, ?_, rfl, ?_⟩
  · simp only [effectsize_oneway, if_neg hbf1, sub_zero]
    rw [div_mul_cancel₀ _ e1, div_mul_cancel₀ _ h0]
  · simp only [effectsize_oneway, if_neg hbf2, sub_zero]
    rw [div_mul_cancel₀ _ e1, div_mul_cancel₀ _ h0]
  · have h1 : ("bf" : String) ≠ "equal" := by decide
    have h2 : strLower "bf" = "bf" := by decide
    simp [effectsize_oneway, npdot_map_div_left, if_neg h1, if_pos h2]

/-- Witness for C4: the amended theorem at concrete summaries with
`ddof_between = 1`. -/
theorem effectsize_oneway_divisor_amended_witness :
    (effectsize_oneway [0, 3] [1, 2] [10, 5] "unequal" 1 *
         (List.sum [(10 : ℚ), 5] - 1) =
       effectsize_oneway [0, 3] [1, 2] [10, 5] "unequal" 0 *
         List.sum [(10 : ℚ), 5]) ∧
    (effectsize_oneway [0, 3] [1, 2] [10, 5] "equal" 1 *
         (List.sum [(10 : ℚ), 5] - 1) =
       effectsize_oneway [0, 3] [1, 2] [10, 5] "equal" 0 *
         List.sum [(10 : ℚ), 5]) ∧
    (effectsize_oneway [0, 3] [1, 2] [10, 5] "bf" 1 =
       effectsize_oneway [0, 3] [1, 2] [10, 5] "bf" 0) ∧
    (effectsize_oneway [0, 3] [1, 2] [10, 5] "bf" 0 =
      (let nobs_t : ℚ := List.sum [(10 : ℚ), 5]
       let k : ℚ := List.length [(0 : ℚ), 3]
       let meanw : ℚ := npdot [10, 5] [0, 3] / List.sum [(10 : ℚ), 5]
       let tmp : ℚ :=
         (List.zipWith (fun n v => (1 - n / nobs_t) * v) [10, 5] [1, 2]).sum
       let statistic : ℚ :=
         npdot [10, 5] (List.map (fun m => (m - meanw) ^ 2) [0, 3]) / tmp
       let df_num : ℚ :=
         tmp ^ 2 /
           ((List.map (fun v => v ^ 2) [(1 : ℚ), 2]).sum +
             ((List.zipWith (fun n v => n / nobs_t * v) [10, 5]
               [1, 2]).sum) ^ 2 -
             2 * (List.zipWith (fun n v => n / nobs_t * v ^ 2) [10, 5]
               [1, 2]).sum)
       statistic * (List.map (fun n => 1 - n / nobs_t) [10, 5]).sum /
         nobs_t * df_num / (k - 1))) :=
  effectsize_oneway_divisor_amended [0, 3] [1, 2] [10, 5] 1 (by norm_num)
    (by norm_num)

theorem sum_map_sub_one (ns : List ℚ) :
    (ns.map (fun n => n - 1)).sum = ns.sum - ns.length := by
  induction ns with
  | nil => simp
  | cons n ns ih =>
    simp only [List.map_cons, List.sum_cons, ih, List.length_cons]
    push_cast
    ring

/-- Under a common variance `v`, the Welch ("unequal") effect size
(`ddof_between = 0`) has the closed form
`sum(nobs*(means - meanw)^2) / (v * nobs_total)`. -/
theorem effectsize_unequal_common_var (means nobs : List ℚ) (v : ℚ)
    (hv : v ≠ 0) (hlen : nobs.length = means.length) :
    effectsize_oneway means (List.replicate means.length v) nobs "unequal" 0 =
      npdot nobs
          (means.map (fun m => (m - npdot nobs means / nobs.sum) ^ 2)) /
        (v * nobs.sum) := by
  have hbfu : strLower "unequal" ≠ "bf" := by decide
  have hue : ("unequal" : String) ≠ "equal" := by decide
  have hw : List.zipWith (· / ·) nobs (List.replicate means.length v) =
      nobs.map (fun n => n / v) :=
    zipWith_replicate_right _ _ _ _ (le_of_eq hlen)
  have hrel : (fun x => x / (nobs.sum / v)) ∘ (fun n => n / v) =
      fun n => n / nobs.sum := by
    funext n
    rw [Function.comp_apply, div_div, mul_comm v (nobs.sum / v),
      div_mul_cancel₀ _ hv]
  simp only [effectsize_oneway, if_neg hbfu, if_neg hue, hw, sub_zero,
    sum_map_div, List.map_map, hrel, npdot_map_div_left]
  rw [div_div]

/-- Under a common variance `v` (with group count different from one), the
Brown-Forsythe effect size (`ddof_between = 0`) collapses to the same
closed form as the Welch one: the correction ratio `df_num/(k-1)` is one
and the scaling reduces to `1 / (v * nobs_total)`. -/
theorem effectsize_bf_common_var (means nobs : List ℚ) (v : ℚ)
    (hv : v ≠ 0) (hS1 : nobs.sum ≠ 0) (hk1 : ((means.length : ℚ)) ≠ 1)
    (hlen : nobs.length = means.length) :
    effectsize_oneway means (List.replicate means.length v) nobs "bf" 0 =
      npdot nobs
          (means.map (fun m => (m - npdot nobs means / nobs.sum) ^ 2)) /
        (v * nobs.sum) := by
  have hbe : ("bf" : String) ≠ "equal" := by decide
  have hbb : strLower "bf" = "bf" := by decide
  have hlenQ : ((nobs.length : ℚ)) = ((means.length : ℚ)) := by
    exact_mod_cast hlen
  have hz1 : List.zipWith (fun n v' => (1 - n / nobs.sum) * v') nobs
      (List.replicate means.length v) =
      nobs.map (fun n => (1 - n / nobs.sum) * v) :=
    zipWith_replicate_right _ _ _ _ (le_of_eq hlen)
  have hz2 : List.zipWith (fun n v' => n / nobs.sum * v') nobs
      (List.replicate means.length v) =
      nobs.map (fun n => n / nobs.sum * v) :=
    zipWith_replicate_right _ _ _ _ (le_of_eq hlen)
  have hz3 : List.zipWith (fun n v' => n / nobs.sum * v' ^ 2) nobs
      (List.replicate means.length v) =
      nobs.map (fun n => n / nobs.sum * v ^ 2) :=
    zipWith_replicate_right _ _ _ _ (le_of_eq hlen)
  have hs0 : (nobs.map (fun n => 1 - n / nobs.sum)).sum =
      (means.length : ℚ) - 1 := by
    rw [sum_map_one_sub_div, hlenQ, div_self hS1]
  have hs1 : (nobs.map (fun n => (1 - n / nobs.sum) * v)).sum =
      ((means.length : ℚ) - 1) * v := by
    rw [sum_map_mul_right nobs (fun n => 1 - n / nobs.sum) v, hs0]
  have hs2 : (nobs.map (fun n => n / nobs.sum * v)).sum = v := by
    rw [sum_map_mul_right nobs (fun n => n / nobs.sum) v, sum_map_div,
      div_self hS1, one_mul]
  have hs3 : (nobs.map (fun n => n / nobs.sum * v ^ 2)).sum = v ^ 2 := by
    rw [sum_map_mul_right nobs (fun n => n / nobs.sum) (v ^ 2), sum_map_div,
      div_self hS1, one_mul]
  have hsq : ((List.replicate means.length v).map (fun x => x ^ 2)).sum =
      (means.length : ℚ) * v ^ 2 := by
    rw [List.map_replicate, List.sum_replicate, nsmul_eq_mul]
  have hKne : ((means.length : ℚ)) - 1 ≠ 0 := sub_ne_zero.mpr hk1
  simp only [effectsize_oneway, if_neg hbe, if_pos hbb, hz1, hz2, hz3, hs0,
    hs1, hs2, hs3, hsq, npdot_map_div_left]
  have hden : ((means.length : ℚ)) * v ^ 2 + v ^ 2 - 2 * v ^ 2 =
      (((means.length : ℚ)) - 1) * v ^ 2 := by ring
  rw [hden]
  field_simp
  ring

/-- C8: for every `(means, nobs)` and every common variance `v > 0` shared
by all groups (per-group variance array `[v, ..., v]`, valid summaries with
`nobs_i > 1`), `effectsize_oneway` with `ddof_between = 0` returns exactly
the same effect size under the modes `"equal"`, `"unequal"` and `"bf"`. -/
theorem effectsize_oneway_common_variance_modes (means nobs : List ℚ)
    (v : ℚ) (hv : 0 < v) (hn : ∀ n ∈ nobs, 1 < n)
    (hlen : nobs.length = means.length) :
    (effectsize_oneway means (List.replicate means.length v) nobs "equal" 0 =
       effectsize_oneway means (List.replicate means.length v) nobs
         "unequal" 0) ∧
    (effectsize_oneway means (List.replicate means.length v) nobs "unequal"
         0 =
       effectsize_oneway means (List.replicate means.length v) nobs "bf"
         0) := by
  have hvne : v ≠ 0 := ne_of_gt hv
  have hbfe : strLower "equal" ≠ "bf" := by decide
  have hbfu : strLower "unequal" ≠ "bf" := by decide
  have hbb : strLower "bf" = "bf" := by decide
  have hbe : ("bf" : String) ≠ "equal" := by decide
  have hue : ("unequal" : String) ≠ "equal" := by decide
  have hee : ("equal" : String) = "equal" := rfl
  rcases Nat.eq_zero_or_pos means.length with hk0 | hkpos
  · obtain rfl : means = [] := List.length_eq_zero.mp hk0
    obtain rfl : nobs = [] := List.length_eq_zero.mp (hlen.trans hk0)
    constructor <;>
      norm_num [effectsize_oneway, npdot, if_neg hbfe, if_neg hbfu,
        if_neg hue, if_pos hbb, if_neg hbe, if_pos hee]
  · have hne : nobs ≠ [] := by
      intro h
      rw [h] at hlen
      simp only [List.length_nil] at hlen
      omega
    have hS1big := length_lt_sum_of_one_lt nobs hne hn
    have hlenQ : ((nobs.length : ℚ)) = ((means.length : ℚ)) := by
      exact_mod_cast hlen
    have hlen1 : (1 : ℚ) ≤ (nobs.length : ℚ) := by
      have h1 : 1 ≤ nobs.length := List.length_pos.mpr hne
      exact_mod_cast h1
    have hS1pos : (0 : ℚ) < nobs.sum := by linarith
    have hS1 : nobs.sum ≠ 0 := ne_of_gt hS1pos
    constructor
    · have hvars :
          (if (List.replicate means.length v).length = 1 then
             List.replicate means.length v
           else
             List.replicate means.length
               ((List.zipWith (fun n v' => (n - 1) * v') nobs
                   (List.replicate means.length v)).sum /
                 (nobs.sum - (means.length : ℚ)))) =
          List.replicate means.length v := by
        by_cases hL : (List.replicate means.length v).length = 1
        · rw [if_pos hL]
        · rw [if_neg hL]
          have hzw : List.zipWith (fun n v' => (n - 1) * v') nobs
              (List.replicate means.length v) =
              nobs.map (fun n => (n - 1) * v) :=
            zipWith_replicate_right _ _ _ _ (le_of_eq hlen)
          rw [hzw, sum_map_mul_right nobs (fun n => n - 1) v,
            sum_map_sub_one, hlenQ]
          have hSk : nobs.sum - ((means.length : ℚ)) ≠ 0 := by
            rw [← hlenQ]
            exact sub_ne_zero.mpr (ne_of_gt hS1big)
          rw [mul_comm, mul_div_assoc, div_self hSk, mul_one]
      simp only [effectsize_oneway, if_neg hbfe, if_neg hbfu, if_neg hue,
        if_pos hee, hvars, ite_self]
    · rcases Nat.lt_or_ge means.length 2 with hk2 | hk2
      · have hL1 : means.length = 1 := by omega
        obtain ⟨m, rfl⟩ := List.length_eq_one.mp hL1
        have hL1n : nobs.length = 1 := hlen.trans hL1
        obtain ⟨n, rfl⟩ := List.length_eq_one.mp hL1n
        have hn1 : (1 : ℚ) < n := hn n (by simp)
        have hnpos : (0 : ℚ) < n := by linarith
        have hnne : n ≠ 0 := ne_of_gt hnpos
        have hnv : n / v ≠ 0 := div_ne_zero hnne hvne
        norm_num [effectsize_oneway, npdot, if_neg hbfu, if_neg hue,
          if_pos hbb, if_neg hbe, div_self hnv, div_self hnne]
      · have hk1Q : ((means.length : ℚ)) ≠ 1 := by
          have h2 : (2 : ℚ) ≤ ((means.length : ℚ)) := by exact_mod_cast hk2
          linarith
        rw [effectsize_unequal_common_var means nobs v hvne hlen,
          effectsize_bf_common_var means nobs v hvne hS1 hk1Q hlen]

/-- Witness for C8: two groups with means `[1, 2]`, `nobs = [2, 3]` and
common variance `2`. -/
theorem effectsize_oneway_common_variance_modes_witness :
    (effectsize_oneway [1, 2] (List.replicate [(1 : ℚ), 2].length 2) [2, 3]
         "equal" 0 =
       effectsize_oneway [1, 2] (List.replicate [(1 : ℚ), 2].length 2)
         [2, 3] "unequal" 0) ∧
    (effectsize_oneway [1, 2] (List.replicate [(1 : ℚ), 2].length 2) [2, 3]
         "unequal" 0 =
       effectsize_oneway [1, 2] (List.replicate [(1 : ℚ), 2].length 2)
         [2, 3] "bf" 0) :=
  effectsize_oneway_common_variance_modes [1, 2] [2, 3] 2 (by norm_num)
    (by
      intro n hn
      fin_cases hn <;> norm_num)
    rfl

/-- Counterexample for C9: the claim quantifies over any number of groups,
but the loop body of `simulate_power_equivalence_oneway` unpacks the
per-group samples into exactly four variables (`y0, y1, y2, y3 = [...]`).
With three groups the simulation fails on the first trial instead of
returning the per-trial arrays. -/
theorem simulate_power_equivalence_three_groups_fails :
    simulate_power_equivalence_oneway (fun _ _ _ => 0) (fun _ _ _ _ => 0)
        (fun _ _ _ _ => 0) (fun q => q) (fun _ _ _ => 0)
        [0, 0, 0] [2, 2, 2] 1 none 1 0 none "f2" =
      Except.error "not enough or too many values to unpack (expected 4)" :=
  rfl

theorem except_bind_ok {α β : Type} (a : α) (f : α → Except String β) :
    (Except.ok a >>= f : Except String β) = f a := rfl

theorem except_mapM_ok {α β : Type} (f : α → Except String β) (g : α → β)
    (l : List α) (h : ∀ a ∈ l, f a = .ok (g a)) :
    l.mapM f = Except.ok (l.map g) := by
  induction l with
  | nil => rfl
  | cons x xs ih =>
    rw [List.mapM_cons, h x (by simp), List.map_cons,
      ih (fun a ha => h a (by simp [ha]))]
    rfl

theorem anova_generic_valid_ok (f_sf : ℚ → ℚ → ℚ → ℚ)
    (means vars_ nobs : List ℚ) (welch : Bool) (uv : String)
    (h : uv ∈ ["unequal", "equal", "bf"]) :
    ∃ a, anova_generic f_sf means vars_ nobs uv welch = .ok a := by
  fin_cases h <;> exact ⟨_, rfl⟩

theorem anova_oneway_valid_ok (f_sf : ℚ → ℚ → ℚ → ℚ) (data : List (List ℚ))
    (uv : String) (welch : Bool) (trim_frac : ℚ)
    (h : uv ∈ ["unequal", "equal", "bf"]) :
    ∃ a, anova_oneway f_sf data uv welch trim_frac = .ok a := by
  unfold anova_oneway
  split <;> exact anova_generic_valid_ok _ _ _ _ _ _ h

theorem equivalence_valid_ok (ncf_ppf ncf_cdf : ℚ → ℚ → ℚ → ℚ → ℚ)
    (f_stat : ℚ) (n_groups : ℕ) (nobs : List ℚ) (equiv_margin : ℚ)
    (df : ℚ × ℚ) (alpha : ℚ) (mt : String)
    (h : mt ∈ ["wellek", "f2", "fsqu", "fsquared"]) :
    ∃ e, equivalence_oneway_generic ncf_ppf ncf_cdf f_stat n_groups nobs
        equiv_margin df alpha mt = .ok e := by
  fin_cases h <;> exact ⟨_, rfl⟩

/-- The value of one (trial, variance-mode) cell when both pipeline stages
succeed (total version of `mcCellE`, used to state the C9 result). -/
def mcCell (f_sf : ℚ → ℚ → ℚ → ℚ) (ncf_ppf ncf_cdf : ℚ → ℚ → ℚ → ℚ → ℚ)
    (ys : List (List ℚ)) (trim_frac : ℚ) (n_groups : ℕ)
    (nobs_sum nobs_mean equiv_margin : ℚ) (margin_type uv : String) :
    ℚ × ℚ × Bool × List ℚ :=
  match mcCellE f_sf ncf_ppf ncf_cdf ys trim_frac n_groups nobs_sum
      nobs_mean equiv_margin margin_type uv with
  | .ok c => c
  | .error _ => (0, 0, false, [])

theorem mcCellE_eq_ok (f_sf : ℚ → ℚ → ℚ → ℚ)
    (ncf_ppf ncf_cdf : ℚ → ℚ → ℚ → ℚ → ℚ) (ys : List (List ℚ))
    (trim_frac : ℚ) (n_groups : ℕ) (nobs_sum nobs_mean equiv_margin : ℚ)
    (mt uv : String) (huv : uv ∈ ["unequal", "equal", "bf"])
    (hmt : mt ∈ ["wellek", "f2", "fsqu", "fsquared"]) :
    mcCellE f_sf ncf_ppf ncf_cdf ys trim_frac n_groups nobs_sum nobs_mean
        equiv_margin mt uv =
      .ok (mcCell f_sf ncf_ppf ncf_cdf ys trim_frac n_groups nobs_sum
        nobs_mean equiv_margin mt uv) := by
  obtain ⟨a, ha⟩ := anova_oneway_valid_ok f_sf ys uv true trim_frac huv
  obtain ⟨e, he⟩ := equivalence_valid_ok ncf_ppf ncf_cdf a.statistic
    n_groups [nobs_sum] equiv_margin a.df (5 / 100) mt hmt
  simp [mcCellE, mcCell, ha, he, except_bind_ok]

theorem list_eq_four {α : Type} (l : List α) (h : l.length = 4) :
    ∃ a b c d, l = [a, b, c, d] := by
  rcases l with _ | ⟨a, _ | ⟨b, _ | ⟨c, _ | ⟨d, _ | ⟨e, tl⟩⟩⟩⟩⟩ <;>
    simp only [List.length_nil, List.length_cons] at h <;>
    first
      | omega
      | exact ⟨a, b, c, d, rfl⟩

theorem genSamples_four (randn : ℕ → ℕ → ℕ → ℚ) (t : ℕ)
    (n0 n1 n2 n3 : ℕ) (m0 m1 m2 m3 s0 s1 s2 s3 : ℚ) (g : ℕ) :
    genSamples randn t [n0, n1, n2, n3] [m0, m1, m2, m3] [s0, s1, s2, s3]
        g =
      [(List.range n0).map (fun j => m0 + s0 * randn t g j),
       (List.range n1).map (fun j => m1 + s1 * randn t (g + 1) j),
       (List.range n2).map (fun j => m2 + s2 * randn t (g + 2) j),
       (List.range n3).map (fun j => m3 + s3 * randn t (g + 3) j)] := by
  simp [genSamples]

/-- The claim-side per-trial row of the Monte Carlo simulation: for trial
`t`, one pipeline cell per requested variance mode, each run on the
trial's synthetic samples `genSamples randn t nobs means stds 0`. -/
def mcTrialRow (f_sf : ℚ → ℚ → ℚ → ℚ) (ncf_ppf ncf_cdf : ℚ → ℚ → ℚ → ℚ → ℚ)
    (randn : ℕ → ℕ → ℕ → ℚ) (means : List ℚ) (nobs : List ℕ)
    (equiv_margin : ℚ) (stds : List ℚ) (trim_frac : ℚ)
    (margin_type : String) (options : List String) (n_groups : ℕ)
    (nobs_sum nobs_mean : ℚ) (t : ℕ) : List (ℚ × ℚ × Bool × List ℚ) :=
  options.map (fun uv =>
    mcCell f_sf ncf_ppf ncf_cdf (genSamples randn t nobs means stds 0)
      trim_frac n_groups nobs_sum nobs_mean equiv_margin margin_type uv)

theorem simTrial_ok (f_sf : ℚ → ℚ → ℚ → ℚ)
    (ncf_ppf ncf_cdf : ℚ → ℚ → ℚ → ℚ → ℚ) (randn : ℕ → ℕ → ℕ → ℚ)
    (means : List ℚ) (nobs : List ℕ) (equiv_margin : ℚ) (stds : List ℚ)
    (trim_frac : ℚ) (margin_type : String) (options : List String)
    (n_groups : ℕ) (nobs_sum nobs_mean : ℚ) (t : ℕ)
    (hy4 : (genSamples randn t nobs means stds 0).length = 4)
    (hopts : ∀ uv ∈ options, uv ∈ ["unequal", "equal", "bf"])
    (hmt : margin_type ∈ ["wellek", "f2", "fsqu", "fsquared"]) :
    simTrial f_sf ncf_ppf ncf_cdf randn means nobs equiv_margin stds
        trim_frac margin_type options n_groups nobs_sum nobs_mean t =
      .ok ((mcTrialRow f_sf ncf_ppf ncf_cdf randn means nobs equiv_margin
              stds trim_frac margin_type options n_groups nobs_sum nobs_mean
              t).map (·.1),
           (mcTrialRow f_sf ncf_ppf ncf_cdf randn means nobs equiv_margin
              stds trim_frac margin_type options n_groups nobs_sum nobs_mean
              t).map (·.2.1),
           (mcTrialRow f_sf ncf_ppf ncf_cdf randn means nobs equiv_margin
              stds trim_frac margin_type options n_groups nobs_sum nobs_mean
              t).map (·.2.2.1),
           ((mcTrialRow f_sf ncf_ppf ncf_cdf randn means nobs equiv_margin
              stds trim_frac margin_type options n_groups nobs_sum nobs_mean
              t).map (·.2.2.2)).flatten) := by
  obtain ⟨y0, y1, y2, y3, hy⟩ := list_eq_four _ hy4
  have hcells := except_mapM_ok
    (mcCellE f_sf ncf_ppf ncf_cdf [y0, y1, y2, y3] trim_frac n_groups
      nobs_sum nobs_mean equiv_margin margin_type)
    (mcCell f_sf ncf_ppf ncf_cdf [y0, y1, y2, y3] trim_frac n_groups
      nobs_sum nobs_mean equiv_margin margin_type)
    options
    (fun uv hu => mcCellE_eq_ok f_sf ncf_ppf ncf_cdf [y0, y1, y2, y3]
      trim_frac n_groups nobs_sum nobs_mean equiv_margin margin_type uv
      (hopts uv hu) hmt)
  unfold simTrial mcTrialRow
  rw [hy]
  simp only [hcells, except_bind_ok]
  rfl


theorem simulate_ok_of_samples (f_sf : ℚ → ℚ → ℚ → ℚ)
    (ncf_ppf ncf_cdf : ℚ → ℚ → ℚ → ℚ → ℚ) (sqrtQ : ℚ → ℚ)
    (randn : ℕ → ℕ → ℕ → ℚ) (means : List ℚ) (nobs : List ℕ)
    (equiv_margin : ℚ) (vars_ : Option (List ℚ)) (k_mc : ℕ)
    (trim_frac : ℚ) (opts : List String) (mt : String)
    (hy4 : ∀ t, (genSamples randn t nobs means
      (simStds sqrtQ means vars_) 0).length = 4)
    (hopts : ∀ uv ∈ opts, uv ∈ ["unequal", "equal", "bf"])
    (hmt : mt ∈ ["wellek", "f2", "fsqu", "fsquared"]) :
    simulate_power_equivalence_oneway f_sf ncf_ppf ncf_cdf sqrtQ randn means
        nobs equiv_margin vars_ k_mc trim_frac (some opts) mt =
      Except.ok
        { f_stat := (List.range k_mc).map (fun t =>
            (mcTrialRow f_sf ncf_ppf ncf_cdf randn means nobs equiv_margin
                (simStds sqrtQ means vars_) trim_frac mt opts nobs.length
                ((nobs.map (fun n => (n : ℚ))).sum)
                ((nobs.map (fun n => (n : ℚ))).sum / nobs.length) t).map
              (·.2.1))
          other := (List.range k_mc).map (fun t =>
            ((mcTrialRow f_sf ncf_ppf ncf_cdf randn means nobs equiv_margin
                (simStds sqrtQ means vars_) trim_frac mt opts nobs.length
                ((nobs.map (fun n => (n : ℚ))).sum)
                ((nobs.map (fun n => (n : ℚ))).sum / nobs.length) t).map
              (·.2.2.2)).flatten)
          pvalue := (List.range k_mc).map (fun t =>
            (mcTrialRow f_sf ncf_ppf ncf_cdf randn means nobs equiv_margin
                (simStds sqrtQ means vars_) trim_frac mt opts nobs.length
                ((nobs.map (fun n => (n : ℚ))).sum)
                ((nobs.map (fun n => (n : ℚ))).sum / nobs.length) t).map
              (·.1))
          reject := (List.range k_mc).map (fun t =>
            (mcTrialRow f_sf ncf_ppf ncf_cdf randn means nobs equiv_margin
                (simStds sqrtQ means vars_) trim_frac mt opts nobs.length
                ((nobs.map (fun n => (n : ℚ))).sum)
                ((nobs.map (fun n => (n : ℚ))).sum / nobs.length) t).map
              (·.2.2.1)) } := by
  have hmapM := except_mapM_ok
    (simTrial f_sf ncf_ppf ncf_cdf randn means nobs equiv_margin
      (simStds sqrtQ means vars_) trim_frac mt opts nobs.length
      ((nobs.map (fun n => (n : ℚ))).sum)
      ((nobs.map (fun n => (n : ℚ))).sum / nobs.length))
    _ (List.range k_mc)
    (fun t _ => simTrial_ok f_sf ncf_ppf ncf_cdf randn means nobs
      equiv_margin (simStds sqrtQ means vars_) trim_frac mt opts nobs.length
      ((nobs.map (fun n => (n : ℚ))).sum)
      ((nobs.map (fun n => (n : ℚ))).sum / nobs.length) t (hy4 t) hopts hmt)
  simp only [simulate_power_equivalence_oneway, Option.getD_some, hmapM,
    except_bind_ok, List.map_map]
  rfl

/-- C9 amended: for exactly FOUR groups (the loop body fixes the group
count by unpacking `y0, y1, y2, y3 = [...]`; any other group count fails),
with matching `nobs` (and, when given, `vars_`) and valid variance modes
and margin type, each Monte Carlo trial `t` of
`simulate_power_equivalence_oneway` draws one synthetic normal sample per
group (`genSamples`), runs the `anova_oneway` plus
`equivalence_oneway_generic` pipeline for every requested variance mode
(`mcTrialRow`/`mcCell`), and the result collects the per-trial arrays of
p-values, Wellek-scaled effect sizes and rejection flags, each of shape
trials x modes. -/
theorem simulate_power_equivalence_four_groups
    (f_sf : ℚ → ℚ → ℚ → ℚ) (ncf_ppf ncf_cdf : ℚ → ℚ → ℚ → ℚ → ℚ)
    (sqrtQ : ℚ → ℚ) (randn : ℕ → ℕ → ℕ → ℚ) (means : List ℚ)
    (nobs : List ℕ) (equiv_margin : ℚ) (vars_ : Option (List ℚ))
    (k_mc : ℕ) (trim_frac : ℚ) (opts : List String) (mt : String)
    (hm : means.length = 4) (hnl : nobs.length = 4)
    (hv : vars_ = none ∨ ∃ vs, vars_ = some vs ∧ vs.length = 4)
    (hopts : ∀ uv ∈ opts, uv ∈ ["unequal", "equal", "bf"])
    (hmt : mt ∈ ["wellek", "f2", "fsqu", "fsquared"]) :
    simulate_power_equivalence_oneway f_sf ncf_ppf ncf_cdf sqrtQ randn means
        nobs equiv_margin vars_ k_mc trim_frac (some opts) mt =
      Except.ok
        { f_stat := (List.range k_mc).map (fun t =>
            (mcTrialRow f_sf ncf_ppf ncf_cdf randn means nobs equiv_margin
                (simStds sqrtQ means vars_) trim_frac mt opts nobs.length
                ((nobs.map (fun n => (n : ℚ))).sum)
                ((nobs.map (fun n => (n : ℚ))).sum / nobs.length) t).map
              (·.2.1))
          other := (List.range k_mc).map (fun t =>
            ((mcTrialRow f_sf ncf_ppf ncf_cdf randn means nobs equiv_margin
                (simStds sqrtQ means vars_) trim_frac mt opts nobs.length
                ((nobs.map (fun n => (n : ℚ))).sum)
                ((nobs.map (fun n => (n : ℚ))).sum / nobs.length) t).map
              (·.2.2.2)).flatten)
          pvalue := (List.range k_mc).map (fun t =>
            (mcTrialRow f_sf ncf_ppf ncf_cdf randn means nobs equiv_margin
                (simStds sqrtQ means vars_) trim_frac mt opts nobs.length
                ((nobs.map (fun n => (n : ℚ))).sum)
                ((nobs.map (fun n => (n : ℚ))).sum / nobs.length) t).map
              (·.1))
          reject := (List.range k_mc).map (fun t =>
            (mcTrialRow f_sf ncf_ppf ncf_cdf randn means nobs equiv_margin
                (simStds sqrtQ means vars_) trim_frac mt opts nobs.length
                ((nobs.map (fun n => (n : ℚ))).sum)
                ((nobs.map (fun n => (n : ℚ))).sum / nobs.length) t).map
              (·.2.2.1)) } ∧
    (simulate_power_equivalence_oneway f_sf ncf_ppf ncf_cdf sqrtQ randn
          means nobs equiv_margin vars_ k_mc trim_frac (some opts) mt).map
        (fun r => (r.pvalue.map List.length, r.f_stat.map List.length,
                   r.reject.map List.length)) =
      Except.ok (List.replicate k_mc opts.length,
                 List.replicate k_mc opts.length,
                 List.replicate k_mc opts.length) := by
  have hy4 : ∀ t, (genSamples randn t nobs means
      (simStds sqrtQ means vars_) 0).length = 4 := by
    intro t
    obtain ⟨m0, m1, m2, m3, hm4⟩ := list_eq_four means hm
    obtain ⟨n0, n1, n2, n3, hn4⟩ := list_eq_four nobs hnl
    have hstds : ∃ s0 s1 s2 s3 : ℚ,
        simStds sqrtQ means vars_ = [s0, s1, s2, s3] := by
      rcases hv with rfl | ⟨vs, rfl, hvs⟩
      · refine ⟨1, 1, 1, 1, ?_⟩
        rw [simStds, hm4]
        rfl
      · obtain ⟨v0, v1, v2, v3, hv4⟩ := list_eq_four vs hvs
        refine ⟨sqrtQ v0, sqrtQ v1, sqrtQ v2, sqrtQ v3, ?_⟩
        rw [simStds, hv4]
        rfl
    obtain ⟨s0, s1, s2, s3, hstds⟩ := hstds
    rw [hstds, hm4, hn4, genSamples_four]
    rfl
  have h1 := simulate_ok_of_samples f_sf ncf_ppf ncf_cdf sqrtQ randn means
    nobs equiv_margin vars_ k_mc trim_frac opts mt hy4 hopts hmt
  refine ⟨h1, ?_⟩
  rw [h1]
  simp only [Except.map, List.map_map, Function.comp_def, mcTrialRow,
    List.length_map, List.map_const', List.length_range]

/-- Witness for C9: four groups, one trial, all three variance modes,
margin type `"f2"`, with concrete opaque primitives; the per-trial arrays
have shape `1 x 3`. -/
theorem simulate_power_equivalence_four_groups_witness :
    (simulate_power_equivalence_oneway (fun _ _ _ => 0) (fun _ _ _ _ => 0)
          (fun _ _ _ _ => 0) (fun q => q) (fun _ _ _ => 0) [0, 1, 2, 3]
          [2, 2, 2, 2] 1 none 1 0 (some ["unequal", "equal", "bf"])
          "f2").map
        (fun r => (r.pvalue.map List.length, r.f_stat.map List.length,
                   r.reject.map List.length)) =
      Except.ok
        (List.replicate 1 (["unequal", "equal", "bf"].length),
         List.replicate 1 (["unequal", "equal", "bf"].length),
         List.replicate 1 (["unequal", "equal", "bf"].length)) :=
  (simulate_power_equivalence_four_groups (fun _ _ _ => 0)
      (fun _ _ _ _ => 0) (fun _ _ _ _ => 0) (fun q => q) (fun _ _ _ => 0)
      [0, 1, 2, 3] [2, 2, 2, 2] 1 none 1 0 ["unequal", "equal", "bf"] "f2"
      rfl rfl (Or.inl rfl) (by decide) (by decide)).2
